import Mathlib

/-!
Verification development for the serverless-information-extraction repository.

The Python sources are shallowly embedded:
* text is modelled as lists of character codes (`List Nat`), ASCII-faithful for
  the inputs the repository handles;
* Python dictionaries (JSON objects) are association lists `List (String × PyVal)`;
* the five regular expressions of `_extract_people_count` are embedded as
  sequences of a tiny regex AST, matched with Python `re` semantics
  (leftmost match, ordered alternation, greedy quantifiers with backtracking,
  non-overlapping scanning for `findall`);
* the polling loop of `_poll_for_results` is embedded as a recursion over the
  remaining wait budget (the source loop runs while `elapsed < max_wait_time`
  and sleeps 2 seconds between non-terminal polls; here `rem = max_wait_time -
  elapsed`, which decreases by 2 per non-terminal poll);
* exceptions are embedded as explicit error values.
-/

/-- A Python value as used by this repository (JSON scalars, objects, lists).
Floats occur only as stored confidence literals and are never computed with;
`vfloat m e` stands for the literal m·10^(-e) (so `0.9` is `vfloat 9 1` and
`0.0` is `vfloat 0 1`). -/
inductive PyVal where
  | vnone : PyVal
  | vstr : String → PyVal
  | vint : Int → PyVal
  | vfloat : Int → Nat → PyVal
  | vlist : List PyVal → PyVal
  | vdict : List (String × PyVal) → PyVal

/-- Python exceptions raised by the embedded code paths. -/
inductive PyError where
  | nameError : PyError
  | indexError : PyError
  | typeError : PyError
  | attributeError : PyError
  | keyError : PyError
deriving DecidableEq

/-- Dictionary lookup (`d[k]` / `d.get(k)`); Python dict keys are unique, the
first binding wins. -/
def lookupA : List (String × PyVal) → String → Option PyVal
  | [], _ => none
  | (k2, v) :: rest, k => if k2 = k then some v else lookupA rest k

/-- Character codes of a string literal. -/
def codes (s : String) : List Nat := s.data.map Char.toNat

/-- ASCII model of Python `str.lower()` applied to the character codes. -/
def lowerCodes (s : String) : List Nat :=
  s.data.map (fun c => let n := c.toNat; if 65 ≤ n && n ≤ 90 then n + 32 else n)

/-- ASCII model of Python `\s` (space, tab, newline, return, vtab, formfeed). -/
def isSpaceCode (n : Nat) : Bool :=
  n = 32 || n = 9 || n = 10 || n = 13 || n = 11 || n = 12

/-- ASCII model of Python `\w` ([a-zA-Z0-9_]).  Python additionally matches
non-ASCII word characters — for example the superscript digit U+00B2 — and on
such captured tokens `str.isdigit` can hold while `int()` raises
`ValueError`, so the source function can raise on non-ASCII descriptions;
this model covers the ASCII texts on which the source is total. -/
def isWordCode (n : Nat) : Bool :=
  (97 ≤ n && n ≤ 122) || (65 ≤ n && n ≤ 90) || (48 ≤ n && n ≤ 57) || n = 95

/-- ASCII digit (`\d`, also `str.isdigit` on the matched tokens). -/
def isDigitCode (n : Nat) : Bool := 48 ≤ n && n ≤ 57

/-- The regex constructs used by the five patterns of `_extract_people_count`:
literals, ordered alternation of literals, an optional alternation group,
`\s*`, `\s+`, and the capturing `(\w+)` / `(\d+)`. -/
inductive RE where
  | lit : String → RE
  | alt : List String → RE
  | optAlt : List String → RE
  | wsStar : RE
  | wsPlus : RE
  | wordPlus : RE
  | digitPlus : RE

/-- Length of the maximal prefix run satisfying `p`. -/
def runLen (p : Nat → Bool) : List Nat → Nat
  | [] => 0
  | c :: r => if p c then runLen p r + 1 else 0

/-- Candidate splits for a greedy quantifier over character class `p`:
the consumed prefix lengths from the maximal run downwards (Python tries the
longest first and backtracks), excluding 0 unless `allowEmpty`. -/
def greedyCands (p : Nat → Bool) (cs : List Nat) (allowEmpty : Bool) :
    List (List Nat × List Nat) :=
  let L := runLen p cs
  (((List.range (L + 1)).reverse).filter (fun i => allowEmpty || !(i = 0))).map
    (fun i => (cs.take i, cs.drop i))

/-- Merge the capture produced by the tail of the pattern with the token the
current element consumed.  Every pattern in the source has exactly one
capturing group, so at most one of the two is ever set. -/
def capMerge (later : Option (List Nat)) (tok : List Nat) : Option (List Nat) :=
  match later with
  | some x => some x
  | none => some tok

/-- Match one regex element at the head of `cs`, with `k` the continuation
matching the rest of the pattern (Python backtracking: alternatives in listed
order, greedy quantifiers longest-first, the first full success wins). -/
def matchRE (re : RE) (cs : List Nat)
    (k : List Nat → Option (Option (List Nat) × List Nat)) :
    Option (Option (List Nat) × List Nat) :=
  match re with
  | .lit s =>
      let n := codes s
      if n.isPrefixOf cs then k (cs.drop n.length) else none
  | .alt ss =>
      ss.findSome? fun s =>
        let n := codes s
        if n.isPrefixOf cs then k (cs.drop n.length) else none
  | .optAlt ss =>
      match ss.findSome? (fun s =>
          let n := codes s
          if n.isPrefixOf cs then k (cs.drop n.length) else none) with
      | some r => some r
      | none => k cs
  | .wsStar => (greedyCands isSpaceCode cs true).findSome? fun pr => k pr.2
  | .wsPlus => (greedyCands isSpaceCode cs false).findSome? fun pr => k pr.2
  | .wordPlus =>
      (greedyCands isWordCode cs false).findSome? fun pr =>
        (k pr.2).map fun r => (capMerge r.1 pr.1, r.2)
  | .digitPlus =>
      (greedyCands isDigitCode cs false).findSome? fun pr =>
        (k pr.2).map fun r => (capMerge r.1 pr.1, r.2)

/-- Match a whole pattern (sequence of elements) at the start of `cs`,
returning the captured group and the remaining input of the first
(backtracking-preferred) match. -/
def matchSeq : List RE → List Nat → Option (Option (List Nat) × List Nat)
  | [], cs => some (none, cs)
  | re :: rest, cs => matchRE re cs (matchSeq rest)

/-- Scanning worker for `re.findall`: try the pattern at the current position;
on success emit the capture and continue after the match, otherwise advance one
character.  `fuel` starts above the text length, so it never runs out. -/
def scanAux (p : List RE) : Nat → List Nat → List (List Nat)
  | 0, _ => []
  | fuel + 1, cs =>
    match matchSeq p cs with
    | some (some tok, rest) =>
        if rest.length < cs.length then tok :: scanAux p fuel rest
        else
          tok :: (match cs with
                  | [] => []
                  | _ :: cs2 => scanAux p fuel cs2)
    | _ =>
        match cs with
        | [] => []
        | _ :: cs2 => scanAux p fuel cs2

/-- `re.findall(pattern, text)`: the group-1 captures of the non-overlapping
leftmost matches, scanning left to right. -/
def reFindall (p : List RE) (cs : List Nat) : List (List Nat) :=
  scanAux p (cs.length + 1) cs

/-- The `number_words` table of `_extract_people_count`. -/
def number_words : List (List Nat × Nat) :=
  [(codes "zero", 0), (codes "one", 1), (codes "two", 2), (codes "three", 3),
   (codes "four", 4), (codes "five", 5), (codes "six", 6), (codes "seven", 7),
   (codes "eight", 8), (codes "nine", 9), (codes "ten", 10),
   (codes "eleven", 11), (codes "twelve", 12), (codes "thirteen", 13),
   (codes "fourteen", 14), (codes "fifteen", 15), (codes "sixteen", 16),
   (codes "seventeen", 17), (codes "eighteen", 18), (codes "nineteen", 19),
   (codes "twenty", 20)]

/-- Numeric value of an all-digit token (`int(match)`). -/
def digitsVal (tok : List Nat) : Nat :=
  tok.foldl (fun a c => a * 10 + (c - 48)) 0

/-- Resolve one matched token: `if match.isdigit(): return int(match)
elif match in number_words: return number_words[match]`.  On ASCII tokens the
`isdigit` guard makes `int(match)` infallible, so resolution is total here;
Python's `isdigit` is wider than the domain of `int` on non-ASCII digit
characters (e.g. U+00B2), where the source raises `ValueError` instead of
returning. -/
def resolveToken (tok : List Nat) : Option Nat :=
  if !tok.isEmpty && tok.all isDigitCode then some (digitsVal tok)
  else number_words.lookup tok

/-- The inner `for match in matches` loop: the first token of the winning
pattern that resolves to an integer is returned. -/
def firstResolved : List (List Nat) → Option Nat
  | [] => none
  | t :: ts =>
    match resolveToken t with
    | some n => some n
    | none => firstResolved ts

/-- The `patterns` list of `_extract_people_count`, in source order. -/
def patterns : List (List RE) :=
  [[.optAlt ["group of", "crowd of"], .wsStar, .wordPlus, .wsPlus,
    .alt ["people", "persons", "individuals", "men", "women", "adults", "children"]],
   [.wordPlus, .wsPlus,
    .alt ["people", "persons", "individuals", "men", "women", "adults", "children"]],
   [.digitPlus, .wsPlus,
    .alt ["people", "persons", "individuals", "men", "women", "adults", "children"]],
   [.alt ["shows", "depicts", "contains", "has", "features"], .wsPlus, .wordPlus,
    .wsPlus, .alt ["people", "persons"]],
   [.wordPlus, .wsPlus, .alt ["people", "persons"], .wsPlus,
    .alt ["sitting", "standing", "walking", "gathered"]]]

/-- The outer `for pattern in patterns` loop: the first pattern owning a
resolvable match decides the count; a pattern none of whose matches resolves
falls through to the next pattern. -/
def patternSearchAux : List (List RE) → List Nat → Option Nat
  | [], _ => none
  | p :: ps, cs =>
    match firstResolved (reFindall p cs) with
    | some n => some n
    | none => patternSearchAux ps cs

/-- Substring test on character codes (Python `needle in haystack`). -/
def hasSubstrAux (needle : List Nat) : List Nat → Bool
  | [] => needle.isPrefixOf []
  | c :: rest => needle.isPrefixOf (c :: rest) || hasSubstrAux needle rest

/-- `phrase in text_lower` for the fixed-phrase fallbacks. -/
def hasSubstr (cs : List Nat) (s : String) : Bool := hasSubstrAux (codes s) cs

/-- The fixed-phrase fallback chain of `_extract_people_count`. -/
def phrase_fallback (cs : List Nat) : Nat :=
  if hasSubstr cs "couple" then 2
  else if hasSubstr cs "trio" || hasSubstr cs "three people" then 3
  else if hasSubstr cs "quartet" || hasSubstr cs "four people" then 4
  else if hasSubstr cs "crowd" || hasSubstr cs "many people" then 10
  else if hasSubstr cs "few people" then 3
  else if hasSubstr cs "several people" then 5
  else 0

/-- `ContentUnderstandingClient._extract_people_count`. -/
def extract_people_count (text : String) : Nat :=
  let cs := lowerCodes text
  match patternSearchAux patterns cs with
  | some n => n
  | none => phrase_fallback cs

/-- Modelled from the spec (section 4.2, step 2): the matching procedure the
specification describes, in which only the FIRST match of the first pattern
that yields any match is consulted — if that single match fails to resolve,
the whole pattern is treated as non-matching.  To be compared with the source
procedure `patternSearchAux`, which keeps trying later matches of the same
pattern. -/
def specPatternSearch : List (List RE) → List Nat → Option Nat
  | [], _ => none
  | p :: ps, cs =>
    match reFindall p cs with
    | [] => specPatternSearch ps cs
    | t :: _ =>
      match resolveToken t with
      | some n => some n
      | none => specPatternSearch ps cs

/-- Modelled from the spec: `_extract_people_count` as the specification
describes it (first match of the winning pattern only). -/
def spec_extract_people_count (text : String) : Nat :=
  let cs := lowerCodes text
  match specPatternSearch patterns cs with
  | some n => n
  | none => phrase_fallback cs

/-! ## The polling client (`_poll_for_results`) -/

/-- One HTTP poll response: the status code and the JSON body (a JSON
object, as produced by the analysis service). -/
structure PollResponse where
  statusCode : Nat
  result : List (String × PyVal)

/-- Python `x == "s"` for an optional JSON value: true exactly for the equal
string. -/
def isStr (v : Option PyVal) (s : String) : Bool :=
  match v with
  | some (.vstr t) => t = s
  | _ => false

/-- Outcome of the poll loop; the distinct `raise` sites of the source map to
distinct constructors (the spec names them `AnalysisError`, `ProtocolError`,
`TimeoutError`; the non-200 branch is the HTTP failure). -/
inductive PollOutcome where
  | success : List (String × PyVal) → PollOutcome
  | httpError : Nat → PollOutcome
  | analysisError : List (String × PyVal) → PollOutcome
  | protocolError : Option PyVal → PollOutcome
  | timeoutError : PollOutcome

/-- The body of one loop iteration of `_poll_for_results`: dispatch on the
response; `next` continues the loop after the 2-second sleep. -/
def pollStep (resp : PollResponse) (k : Nat) (next : Unit → PollOutcome × Nat) :
    PollOutcome × Nat :=
  if resp.statusCode ≠ 200 then (.httpError resp.statusCode, k + 1)
  else if isStr (lookupA resp.result "status") "Succeeded" then
    (.success resp.result, k + 1)
  else if isStr (lookupA resp.result "status") "Failed" then
    (.analysisError resp.result, k + 1)
  else if isStr (lookupA resp.result "status") "Running" ||
      isStr (lookupA resp.result "status") "NotStarted" then next ()
  else (.protocolError (lookupA resp.result "status"), k + 1)

/-- The loop of `_poll_for_results`, reparametrised by the remaining wait
budget `rem = max_wait_time - elapsed` (the source loops while
`elapsed < max_wait_time` and sleeps 2 seconds after each non-terminal poll,
so `rem` drops by 2 per iteration; network calls are instantaneous in the
model).  `env k` is the response to the k-th GET; the returned number is the
total count of GET calls issued. -/
def pollRem (env : Nat → PollResponse) : Nat → Nat → PollOutcome × Nat
  | k, 0 => (.timeoutError, k)
  | k, 1 => pollStep (env k) k (fun _ => (.timeoutError, k + 1))
  | k, rem + 2 => pollStep (env k) k (fun _ => pollRem env (k + 1) rem)

/-- `ContentUnderstandingClient._poll_for_results(operation_location,
max_wait_time=60)`, starting with zero elapsed time. -/
def poll_for_results (env : Nat → PollResponse) (max_wait_time : Nat := 60) :
    PollOutcome × Nat :=
  pollRem env 0 max_wait_time

/-! ## Document processing (`function_app.py`) -/

/-- The per-field loop of `process_document_with_ai`: a dict field is split
into its `value` and its `confidence` (default `0.0`); any other value is
passed through with no confidence entry. -/
def process_fields : List (String × PyVal) →
    List (String × PyVal) × List (String × PyVal)
  | [] => ([], [])
  | (n, v) :: rest =>
    let r := process_fields rest
    match v with
    | .vdict d =>
        ((n, (lookupA d "value").getD .vnone) :: r.1,
         (n, (lookupA d "confidence").getD (.vfloat 0 1)) :: r.2)
    | _ => ((n, v) :: r.1, r.2)

/-- Does a Python list contain the string `s` (Python `"s" in list`: only a
string element compares equal to a string)? -/
def listHasStr (l : List PyVal) (s : String) : Bool :=
  l.any fun v =>
    match v with
    | .vstr t => t = s
    | _ => false

/-- Substring test between strings (Python `needle in haystack`). -/
def hasSubstrStr (hay needle : String) : Bool := hasSubstrAux (codes needle) (codes hay)

/-- The result-unpacking prefix of `process_document_with_ai`: navigate
`result['documents'][0]['fields']` with Python semantics (`in` membership,
indexing, `.items()`), producing the extracted data and confidence maps or the
exception the navigation raises (any such exception sends the caller to the
fallback path). -/
def extract_ai_fields (result : PyVal) : Except PyError (List (String × PyVal) × List (String × PyVal)) :=
  match result with
  | .vdict r =>
    match lookupA r "documents" with
    | none => .ok ([], [])
    | some (.vlist []) => .ok ([], [])
    | some (.vlist (d :: _)) =>
      match d with
      | .vdict dr =>
        match lookupA dr "fields" with
        | some (.vdict fs) => .ok (process_fields fs)
        | some _ => .error .attributeError
        | none => .ok ([], [])
      | .vstr s => if hasSubstrStr s "fields" then .error .typeError else .ok ([], [])
      | .vlist dl => if listHasStr dl "fields" then .error .typeError else .ok ([], [])
      | _ => .error .typeError
    | some (.vstr _) => .ok ([], [])
    | some (.vdict dd) => if dd.isEmpty then .ok ([], []) else .error .keyError
    | some _ => .error .typeError
  | .vstr s => if hasSubstrStr s "documents" then .error .typeError else .ok ([], [])
  | .vlist l => if listHasStr l "documents" then .error .typeError else .ok ([], [])
  | _ => .error .typeError

/-- The dictionary returned by `process_document_with_ai` and
`process_document_fallback` (`timestamp` is injected: the source reads the
wall clock). -/
structure ExtractionInfo where
  timestamp : String
  extracted_data : List (String × PyVal)
  confidence_scores : List (String × PyVal)
  metadata : List (String × PyVal)
  schema_version : String

/-- `filename.lower().endswith(('.txt', '.csv', '.json'))`. -/
def text_extension_ok (filename : String) : Bool :=
  let l := lowerCodes filename
  (codes ".txt").isSuffixOf l || (codes ".csv").isSuffixOf l ||
    (codes ".json").isSuffixOf l

/-- Strict UTF-8 decoding of a byte list into code points
(`bytes.decode('utf-8')`); `none` is the `UnicodeDecodeError` case. -/
def utf8Decode : List Nat → Option (List Nat)
  | [] => some []
  | b :: rest =>
    if b < 128 then (utf8Decode rest).map (b :: ·)
    else if b < 194 then none
    else if b < 224 then
      match rest with
      | b1 :: r =>
        if 128 ≤ b1 && b1 < 192 then
          (utf8Decode r).map (((b - 192) * 64 + (b1 - 128)) :: ·)
        else none
      | _ => none
    else if b < 240 then
      match rest with
      | b1 :: b2 :: r =>
        if (128 ≤ b1 && b1 < 192) && (128 ≤ b2 && b2 < 192) then
          let cp := (b - 224) * 4096 + (b1 - 128) * 64 + (b2 - 128)
          if cp < 2048 || (55296 ≤ cp && cp ≤ 57343) then none
          else (utf8Decode r).map (cp :: ·)
        else none
      | _ => none
    else if b < 245 then
      match rest with
      | b1 :: b2 :: b3 :: r =>
        if (128 ≤ b1 && b1 < 192) && (128 ≤ b2 && b2 < 192) && (128 ≤ b3 && b3 < 192) then
          let cp := (b - 240) * 262144 + (b1 - 128) * 4096 + (b2 - 128) * 64 + (b3 - 128)
          if cp < 65536 || 1114111 < cp then none
          else (utf8Decode r).map (cp :: ·)
        else none
      | _ => none
    else none

/-- Rebuild a string from decoded code points. -/
def stringOfCodes (cps : List Nat) : String := ⟨cps.map Char.ofNat⟩

/-- The `try/except UnicodeDecodeError` block of `process_document_fallback`
computing `text_content`. -/
def fallback_text (content : List Nat) (filename : String) : String :=
  if text_extension_ok filename then
    match utf8Decode content with
    | some cps => stringOfCodes cps
    | none => "Binary file that couldn't be decoded as text: " ++ filename
  else "Binary file: " ++ filename

/-- `filename.split('.')[-1]` on character codes: the segment after the last
dot (the whole string when no dot occurs, but the caller guards on that). -/
def afterLastDot (l : List Nat) : List Nat :=
  l.foldl (fun acc c => if c = 46 then [] else acc ++ [c]) []

/-- `filename.split('.')[-1].lower() if '.' in filename else 'unknown'`. -/
def file_extension_of (filename : String) : String :=
  if (codes filename).contains 46 then
    stringOfCodes (afterLastDot (lowerCodes filename))
  else "unknown"

/-- `len(text_content.split())`: number of maximal non-whitespace runs. -/
def countWords : List Nat → Bool → Nat
  | [], _ => 0
  | c :: rest, inWord =>
    if isSpaceCode c then countWords rest false
    else (if inWord then 0 else 1) + countWords rest true

/-- Python `str.split()` word count of a string. -/
def pySplitCount (s : String) : Nat := countWords (codes s) false

/-- `text_content[:1000] if len(text_content) > 1000 else text_content`. -/
def truncateSummary (s : String) : String :=
  if s.data.length > 1000 then ⟨s.data.take 1000⟩ else s

/-- `process_document_fallback(blob_content, filename)` (timestamp injected
as `now`). -/
def process_document_fallback (now : String) (content : List Nat)
    (filename : String) : ExtractionInfo :=
  let text_content := fallback_text content filename
  { timestamp := now
    extracted_data :=
      [("Summary", .vstr (truncateSummary text_content)),
       ("DocumentType", .vstr "other")]
    confidence_scores := []
    metadata :=
      [("fileExtension", .vstr (file_extension_of filename)),
       ("fileSizeBytes", .vint (Int.ofNat content.length)),
       ("wordCount", .vint (Int.ofNat (pySplitCount text_content))),
       ("characterCount", .vint (Int.ofNat text_content.data.length)),
       ("processingMethod", .vstr "fallback_basic_extraction")]
    schema_version := "fallback" }

/-- `process_document_with_ai(blob_content, filename)`: `ai_outcome` is the
result of the `ai_client.analyze_document` network call; any exception —
from the call itself or from unpacking its result — is caught by the
`except Exception` handler, which degrades to the fallback extractor. -/
def process_document_with_ai (now : String) (ai_outcome : Except PyError PyVal)
    (content : List Nat) (filename : String) : ExtractionInfo :=
  match ai_outcome with
  | .error _ => process_document_fallback now content filename
  | .ok result =>
    match extract_ai_fields result with
    | .error _ => process_document_fallback now content filename
    | .ok (e, c) =>
      { timestamp := now
        extracted_data := e
        confidence_scores := c
        metadata :=
          [("fileExtension", .vstr (file_extension_of filename)),
           ("fileSizeBytes", .vint (Int.ofNat content.length)),
           ("processingMethod", .vstr "azure_ai_content_understanding"),
           ("aiServiceResponse", result)]
        schema_version := "1.0" }

/-- `timestamp.replace(':', '-').replace('.', '-')`. -/
def sanitizeTs (s : String) : String :=
  ⟨s.data.map (fun c => if c = ':' || c = '.' then '-' else c)⟩

/-- The `cosmos_document` built on the success path of `BlobTrigger`. -/
def build_cosmos_document (blobName : String) (blobSize : Nat)
    (info : ExtractionInfo) : List (String × PyVal) :=
  [("id", .vstr (blobName ++ "_" ++ sanitizeTs info.timestamp)),
   ("originalFileName", .vstr blobName),
   ("blobSize", .vint (Int.ofNat blobSize)),
   ("processedTimestamp", .vstr info.timestamp),
   ("extractedData", .vdict info.extracted_data),
   ("metadata", .vdict info.metadata),
   ("processingStatus", .vstr "completed"),
   ("processingMethod", .vstr "azure_ai_content_understanding"),
   ("schemaVersion", .vstr info.schema_version)]

/-! ## Image analysis result interpretation (`analyze_image_for_people`) -/

/-- The `elif 'markdown' in content` branch: the description defaults to the
empty string. -/
def descElse (cc : List (String × PyVal)) : Except PyError PyVal :=
  .ok ((lookupA cc "markdown").getD (.vstr ""))

/-- Evaluate the `description` block of `analyze_image_for_people` on the
first element of `contents`, with Python semantics for `in`, indexing and
`.get` on each possible value shape. -/
def contentDescription (c : PyVal) : Except PyError PyVal :=
  match c with
  | .vdict cc =>
    match lookupA cc "fields" with
    | some f =>
      match f with
      | .vdict ff =>
        match lookupA ff "Summary" with
        | some (.vdict sd) => .ok ((lookupA sd "valueString").getD (.vstr ""))
        | some _ => .error .attributeError
        | none => descElse cc
      | .vstr s => if hasSubstrStr s "Summary" then .error .typeError else descElse cc
      | .vlist fl => if listHasStr fl "Summary" then .error .typeError else descElse cc
      | _ => .error .typeError
    | none => descElse cc
  | .vstr s =>
    if hasSubstrStr s "fields" then .error .typeError
    else if hasSubstrStr s "markdown" then .error .typeError
    else .ok (.vstr "")
  | .vlist l =>
    if listHasStr l "fields" then .error .typeError
    else if listHasStr l "markdown" then .error .typeError
    else .ok (.vstr "")
  | _ => .error .typeError

/-- `analyze_image_for_people`, applied to the terminal poll payload
(a JSON object).  The `description` variable is assigned only inside the
guarded branch, so payloads that skip the branch hit an unbound local at the
final `return` (`NameError`); an empty `contents` list hits `[0]`
(`IndexError`); non-indexable shapes raise `TypeError`/`KeyError`; a
non-string description raises inside `_extract_people_count`
(`AttributeError` from `.lower()`). -/
def analyze_image_for_people (results : List (String × PyVal)) :
    Except PyError (List (String × PyVal)) :=
  match lookupA results "result" with
  | none => .error .nameError
  | some r =>
    match r with
    | .vdict rr =>
      match lookupA rr "contents" with
      | none => .error .nameError
      | some (.vlist []) => .error .indexError
      | some (.vlist (c :: _)) =>
        match contentDescription c with
        | .error e => .error e
        | .ok (.vstr d) =>
            .ok [("people_counts", .vint (Int.ofNat (extract_people_count d))),
                 ("description", .vstr d),
                 ("full_results", .vdict results)]
        | .ok _ => .error .attributeError
      | some (.vstr s) =>
        match s.data with
        | [] => .error .indexError
        | ch :: _ =>
          match contentDescription (.vstr ⟨[ch]⟩) with
          | .error e => .error e
          | .ok (.vstr d) =>
              .ok [("people_counts", .vint (Int.ofNat (extract_people_count d))),
                   ("description", .vstr d),
                   ("full_results", .vdict results)]
          | .ok _ => .error .attributeError
      | some (.vdict _) => .error .keyError
      | some _ => .error .typeError
    | .vstr s => if hasSubstrStr s "contents" then .error .typeError else .error .nameError
    | .vlist l => if listHasStr l "contents" then .error .typeError else .error .nameError
    | _ => .error .typeError

/-! ## The schema cache (`AIContentUnderstandingClient`) -/

/-- Python `f"{v}"` for the value shapes the repository feeds into the schema
cache key (schema names and versions are strings; an absent name formats as
`None`). -/
def pyFormat : PyVal → String
  | .vnone => "None"
  | .vstr s => s
  | .vint n => toString n
  | .vfloat m e => toString m ++ "e-" ++ toString e
  | .vlist _ => "<list>"
  | .vdict _ => "<dict>"

/-- `schema_key = f"{schema.get('name')}_{schema.get('version', '1.0')}"`. -/
def schemaKey (schema : List (String × PyVal)) : String :=
  pyFormat ((lookupA schema "name").getD .vnone) ++ "_" ++
    pyFormat ((lookupA schema "version").getD (.vstr "1.0"))

/-- `register_schema(schema)`: the POST outcome is injected; on success the
service response is cached under the joined key and returned, on failure the
exception propagates and the cache is untouched.  The cache is an association
list where the most recent insertion wins. -/
def register_schema (cache : List (String × PyVal))
    (schema : List (String × PyVal)) (serviceOutcome : Except PyError PyVal) :
    List (String × PyVal) × Except PyError PyVal :=
  match serviceOutcome with
  | .error e => (cache, .error e)
  | .ok result => ((schemaKey schema, result) :: cache, .ok result)

/-- `get_schema_info(schema_name, schema_version)`: cache lookup under the
joined key, `None` when absent. -/
def get_schema_info (cache : List (String × PyVal))
    (schema_name schema_version : String) : Option PyVal :=
  lookupA cache (schema_name ++ "_" ++ schema_version)

/-- Replay a sequence of `register_schema` calls (schema, service outcome)
against one client instance, starting from the empty cache. -/
def run_registrations
    (regs : List (List (String × PyVal) × Except PyError PyVal)) :
    List (String × PyVal) :=
  regs.foldl (fun c r => (register_schema c r.1 r.2).1) []

/-! ## Concrete inputs used by the claims -/

/-- A service that reports `Running` forever. -/
def envRunning : Nat → PollResponse :=
  fun _ => ⟨200, [("status", .vstr "Running")]⟩

/-- The status sequence `[NotStarted, Running, Succeeded]` on successive
polls, the `Succeeded` response carrying a payload. -/
def envSeq3 : Nat → PollResponse := fun k =>
  if k = 0 then ⟨200, [("status", .vstr "NotStarted")]⟩
  else if k = 1 then ⟨200, [("status", .vstr "Running")]⟩
  else ⟨200, [("status", .vstr "Succeeded"), ("data", .vstr "payload3")]⟩

/-- A service that reports `NotStarted` once and then fails with a detail
body. -/
def envFail : Nat → PollResponse := fun k =>
  if k = 0 then ⟨200, [("status", .vstr "NotStarted")]⟩
  else ⟨200, [("status", .vstr "Failed"), ("error", .vstr "bad image")]⟩

/-- A 10001-character extracted text. -/
def longText : String := ⟨List.replicate 10001 'a'⟩

/-- An AI analysis response whose single field holds `longText`. -/
def bigAIResult : PyVal :=
  .vdict [("documents",
    .vlist [.vdict [("fields", .vdict [("Text", .vstr longText)])]])]

/-- A well-shaped image-analysis payload whose first content carries a
markdown description. -/
def results9 : List (String × PyVal) :=
  [("result", .vdict [("contents",
      .vlist [.vdict [("markdown", .vstr "two people")]])])]

/-- A schema whose name contains an underscore, colliding on the joined
cache key with a different name/version pair. -/
def schemaAB : List (String × PyVal) :=
  [("name", .vstr "a_b"), ("version", .vstr "c")]


/-! ## Poll-loop lemmas -/

/-- A `success` outcome only arises from a response whose status was the
string `Succeeded`. -/
theorem pollRem_success_inv (env : Nat → PollResponse) :
    ∀ (rem k : Nat) (r : List (String × PyVal)),
      (pollRem env k rem).1 = PollOutcome.success r →
      isStr (lookupA r "status") "Succeeded" = true
  | 0, k, r, h => by simp [pollRem] at h
  | 1, k, r, h => by
      simp only [pollRem, pollStep] at h
      split_ifs at h <;> simp_all
  | rem + 2, k, r, h => by
      simp only [pollRem, pollStep] at h
      split_ifs at h <;>
        first
          | exact pollRem_success_inv env rem (k + 1) r h
          | simp_all

/-- A `true` string test pins down the value. -/
theorem isStr_true_eq (st : Option PyVal) (s : String) (h : isStr st s = true) :
    st = some (PyVal.vstr s) := by
  cases st with
  | none => simp [isStr] at h
  | some v =>
    cases v with
    | vstr t =>
      simp [isStr] at h
      subst h
      rfl
    | vnone => simp [isStr] at h
    | vint n => simp [isStr] at h
    | vfloat a b => simp [isStr] at h
    | vlist l => simp [isStr] at h
    | vdict d => simp [isStr] at h

/-- A non-terminal check pins the status down to `Running` or `NotStarted`. -/
theorem nonterminal_status (st : Option PyVal)
    (h : (isStr st "Running" || isStr st "NotStarted") = true) :
    st = some (PyVal.vstr "Running") ∨ st = some (PyVal.vstr "NotStarted") := by
  by_cases h1 : isStr st "Running" = true
  · exact Or.inl (isStr_true_eq _ _ h1)
  · simp only [Bool.not_eq_true] at h1
    rw [h1] at h
    simp only [Bool.false_or] at h
    exact Or.inr (isStr_true_eq _ _ h)

/-- Forward behavior on `Failed`: if every response before call `j` was an
HTTP-200 non-terminal one and call `j` (still within the wait budget) answers
HTTP-200 with status `Failed`, the loop stops at call `j` and raises the
analysis error carrying that response body — it does not continue polling. -/
theorem pollRem_reach_failed (env : Nat → PollResponse) :
    ∀ (rem k j : Nat), k ≤ j → 2 * (j - k) < rem →
      (∀ i, k ≤ i → i < j → (env i).statusCode = 200 ∧
        (isStr (lookupA (env i).result "status") "Running" ||
          isStr (lookupA (env i).result "status") "NotStarted") = true) →
      (env j).statusCode = 200 →
      isStr (lookupA (env j).result "status") "Failed" = true →
      pollRem env k rem = (PollOutcome.analysisError (env j).result, j + 1)
  | 0, k, j, _, hb, _, _, _ => absurd hb (by omega)
  | 1, k, j, hkj, hb, _, hcode, hst => by
    have hjk : j = k := by omega
    subst hjk
    have heq := isStr_true_eq _ _ hst
    simp [pollRem, pollStep, hcode, heq, isStr]
  | rem + 2, k, j, hkj, hb, hprev, hcode, hst => by
    rcases Nat.eq_or_lt_of_le hkj with heq | hlt
    · subst heq
      have heq2 := isStr_true_eq _ _ hst
      simp [pollRem, pollStep, hcode, heq2, isStr]
    · have hk := hprev k (Nat.le_refl k) hlt
      have hrec := pollRem_reach_failed env rem (k + 1) j hlt (by omega)
        (fun i hi1 hi2 => hprev i (by omega) hi2) hcode hst
      rcases nonterminal_status _ hk.2 with hre | hre <;>
        simp [pollRem, pollStep, hk.1, hre, isStr, hrec]

/-- Forward behavior on an unrecognized status: if every response before call
`j` was an HTTP-200 non-terminal one and call `j` (still within the wait
budget) answers HTTP-200 with a status outside the known enumeration, the
loop aborts at call `j` with the protocol error carrying that status — a
defensive abort, not a silent continue. -/
theorem pollRem_reach_protocol (env : Nat → PollResponse) :
    ∀ (rem k j : Nat), k ≤ j → 2 * (j - k) < rem →
      (∀ i, k ≤ i → i < j → (env i).statusCode = 200 ∧
        (isStr (lookupA (env i).result "status") "Running" ||
          isStr (lookupA (env i).result "status") "NotStarted") = true) →
      (env j).statusCode = 200 →
      isStr (lookupA (env j).result "status") "Succeeded" = false →
      isStr (lookupA (env j).result "status") "Failed" = false →
      isStr (lookupA (env j).result "status") "Running" = false →
      isStr (lookupA (env j).result "status") "NotStarted" = false →
      pollRem env k rem =
        (PollOutcome.protocolError (lookupA (env j).result "status"), j + 1)
  | 0, k, j, _, hb, _, _, _, _, _, _ => absurd hb (by omega)
  | 1, k, j, hkj, hb, _, hcode, h1, h2, h3, h4 => by
    have hjk : j = k := by omega
    subst hjk
    simp [pollRem, pollStep, hcode, h1, h2, h3, h4]
  | rem + 2, k, j, hkj, hb, hprev, hcode, h1, h2, h3, h4 => by
    rcases Nat.eq_or_lt_of_le hkj with heq | hlt
    · subst heq
      simp [pollRem, pollStep, hcode, h1, h2, h3, h4]
    · have hk := hprev k (Nat.le_refl k) hlt
      have hrec := pollRem_reach_protocol env rem (k + 1) j hlt (by omega)
        (fun i hi1 hi2 => hprev i (by omega) hi2) hcode h1 h2 h3 h4
      rcases nonterminal_status _ hk.2 with hre | hre <;>
        simp [pollRem, pollStep, hk.1, hre, isStr, hrec]

/-- When every response within the wait budget is an HTTP-200 non-terminal
one (`Running` or `NotStarted`), the loop exhausts the budget and times
out. -/
theorem pollRem_nonterminal_timeout (env : Nat → PollResponse) :
    ∀ (rem k : Nat),
      (∀ j, k ≤ j → 2 * (j - k) < rem → (env j).statusCode = 200 ∧
        (isStr (lookupA (env j).result "status") "Running" ||
          isStr (lookupA (env j).result "status") "NotStarted") = true) →
      (pollRem env k rem).1 = PollOutcome.timeoutError
  | 0, k, _ => by simp [pollRem]
  | 1, k, h => by
    have hk := h k (Nat.le_refl k) (by omega)
    rcases nonterminal_status _ hk.2 with hre | hre <;>
      simp [pollRem, pollStep, hk.1, hre, isStr]
  | rem + 2, k, h => by
    have hk := h k (Nat.le_refl k) (by omega)
    have hrec := pollRem_nonterminal_timeout env rem (k + 1)
      (fun j hj hb => h j (by omega) (by omega))
    rcases nonterminal_status _ hk.2 with hre | hre <;>
      simp [pollRem, pollStep, hk.1, hre, isStr, hrec]

/-- Every poll strictly before the last one observed an HTTP-200 non-terminal
(`Running` or `NotStarted`) status: the loop never continues past a terminal
response. -/
theorem pollRem_calls_nonterminal (env : Nat → PollResponse) :
    ∀ (rem k j : Nat), k ≤ j → j + 1 < (pollRem env k rem).2 →
      (env j).statusCode = 200 ∧
      (isStr (lookupA (env j).result "status") "Running" ||
        isStr (lookupA (env j).result "status") "NotStarted") = true
  | 0, k, j, hkj, hj => by simp [pollRem] at hj; omega
  | 1, k, j, hkj, hj => by
      simp only [pollRem, pollStep] at hj
      split_ifs at hj <;> simp_all <;> omega
  | rem + 2, k, j, hkj, hj => by
      simp only [pollRem, pollStep] at hj
      split_ifs at hj with h1 h2 h3 h4
      · simp at hj; omega
      · simp at hj; omega
      · simp at hj; omega
      · rcases Nat.eq_or_lt_of_le hkj with heq | hlt
        · subst heq
          exact ⟨by omega, h4⟩
        · exact pollRem_calls_nonterminal env rem (k + 1) j hlt hj
      · simp at hj; omega

/-- The number of polls is bounded by the wait budget: with a 2-second sleep
after each non-terminal poll, at most `(rem + 1) / 2` further calls happen. -/
theorem pollRem_calls_bound (env : Nat → PollResponse) :
    ∀ (rem k : Nat), (pollRem env k rem).2 ≤ k + (rem + 1) / 2
  | 0, k => by simp [pollRem]
  | 1, k => by
      simp only [pollRem, pollStep]
      split_ifs <;> simp <;> omega
  | rem + 2, k => by
      simp only [pollRem, pollStep]
      split_ifs with h1 h2 h3 h4
      · simp; omega
      · simp; omega
      · simp; omega
      · have := pollRem_calls_bound env rem (k + 1)
        omega
      · simp; omega

/-- C2: the poll loop returns a payload only on observed status `Succeeded`;
after any run of non-terminal responses still within the budget, an observed
`Failed` makes it stop and fail with the analysis error carrying the
service-reported body, and an observed status outside the enumeration
Succeeded/Failed/Running/NotStarted makes it abort with the protocol error
carrying that status (in both cases the call count is `j + 1`: no further
polls); and when every response within the wait budget (default 60 seconds)
is non-terminal — `Running` or `NotStarted` — it fails with the timeout
error. -/
theorem claim2_poll_outcomes (env : Nat → PollResponse) (max_wait_time : Nat) :
    (∀ r, (poll_for_results env max_wait_time).1 = PollOutcome.success r →
      isStr (lookupA r "status") "Succeeded" = true) ∧
    (∀ j, (∀ i, i < j → (env i).statusCode = 200 ∧
        (isStr (lookupA (env i).result "status") "Running" ||
          isStr (lookupA (env i).result "status") "NotStarted") = true) →
      2 * j < max_wait_time → (env j).statusCode = 200 →
      isStr (lookupA (env j).result "status") "Failed" = true →
      poll_for_results env max_wait_time =
        (PollOutcome.analysisError (env j).result, j + 1)) ∧
    (∀ j, (∀ i, i < j → (env i).statusCode = 200 ∧
        (isStr (lookupA (env i).result "status") "Running" ||
          isStr (lookupA (env i).result "status") "NotStarted") = true) →
      2 * j < max_wait_time → (env j).statusCode = 200 →
      isStr (lookupA (env j).result "status") "Succeeded" = false →
      isStr (lookupA (env j).result "status") "Failed" = false →
      isStr (lookupA (env j).result "status") "Running" = false →
      isStr (lookupA (env j).result "status") "NotStarted" = false →
      poll_for_results env max_wait_time =
        (PollOutcome.protocolError (lookupA (env j).result "status"), j + 1)) ∧
    ((∀ j, 2 * j < max_wait_time → (env j).statusCode = 200 ∧
        (isStr (lookupA (env j).result "status") "Running" ||
          isStr (lookupA (env j).result "status") "NotStarted") = true) →
      (poll_for_results env max_wait_time).1 = PollOutcome.timeoutError) := by
  refine ⟨fun r => pollRem_success_inv env max_wait_time 0 r, ?_, ?_, ?_⟩
  · intro j hprev hb hcode hst
    exact pollRem_reach_failed env max_wait_time 0 j (Nat.zero_le j) (by omega)
      (fun i _ hi => hprev i hi) hcode hst
  · intro j hprev hb hcode h1 h2 h3 h4
    exact pollRem_reach_protocol env max_wait_time 0 j (Nat.zero_le j)
      (by omega) (fun i _ hi => hprev i hi) hcode h1 h2 h3 h4
  · intro hall
    exact pollRem_nonterminal_timeout env max_wait_time 0
      (fun j _ hb => hall j (by omega))

/-- Witness for C2: on the concrete `[NotStarted, Failed...]` service the
default-budget poll stops after exactly 2 calls with the analysis error
carrying the failure body, and on an always-`Running` service it times
out. -/
theorem claim2_poll_outcomes_app :
    poll_for_results envFail =
      (PollOutcome.analysisError
        [("status", PyVal.vstr "Failed"), ("error", PyVal.vstr "bad image")],
       2) ∧
    (poll_for_results envRunning).1 = PollOutcome.timeoutError :=
  ⟨(claim2_poll_outcomes envFail 60).2.1 1
      (fun i hi => by
        have h0 : i = 0 := by omega
        subst h0
        exact ⟨rfl, rfl⟩)
      (by omega) rfl rfl,
   (claim2_poll_outcomes envRunning 60).2.2.2 (fun j _ => ⟨rfl, rfl⟩)⟩

/-- C5: every poll except possibly the last observed an HTTP-200 non-terminal
status, so the loop never polls again after a terminal response; the call
count never exceeds the wait budget (no calls happen after the deadline, and
a zero remaining budget makes no call at all); and on the status sequence
`[NotStarted, Running, Succeeded]` the loop makes exactly 3 calls and returns
the `Succeeded` payload. -/
theorem claim5_poll_terminal (env : Nat → PollResponse) :
    (∀ rem k j, k ≤ j → j + 1 < (pollRem env k rem).2 →
      (env j).statusCode = 200 ∧
      (isStr (lookupA (env j).result "status") "Running" ||
        isStr (lookupA (env j).result "status") "NotStarted") = true) ∧
    (∀ rem k, (pollRem env k rem).2 ≤ k + (rem + 1) / 2) ∧
    (∀ k, pollRem env k 0 = (PollOutcome.timeoutError, k)) ∧
    poll_for_results envSeq3 =
      (PollOutcome.success [("status", PyVal.vstr "Succeeded"),
        ("data", PyVal.vstr "payload3")], 3) :=
  ⟨fun rem k j => pollRem_calls_nonterminal env rem k j,
   fun rem k => pollRem_calls_bound env rem k,
   fun _ => rfl,
   rfl⟩

/-- Witness for C5: on the `[NotStarted, Running, Succeeded]` run the second
call (index 1, before the final one) observed a non-terminal status. -/
theorem claim5_poll_terminal_app :
    (envSeq3 1).statusCode = 200 ∧
    (isStr (lookupA (envSeq3 1).result "status") "Running" ||
      isStr (lookupA (envSeq3 1).result "status") "NotStarted") = true :=
  (claim5_poll_terminal envSeq3).1 60 0 1 (by omega) (by decide)

/-! ## People-count extraction claims -/

/-- C1 counterexample: the description `"three people and five people"`
embeds the phrase `"five people"` (n = 5 as a number word), yet the extractor
returns 3, because an earlier resolvable quantity token wins. -/
theorem claim1_count_embedded_cex :
    hasSubstr (lowerCodes "three people and five people") "five people" = true ∧
    extract_people_count "three people and five people" ≠ 5 ∧
    extract_people_count "three people and five people" = 3 :=
  ⟨by decide, by decide, by decide⟩

/-- C1 (amended): for every n ≤ 20, written as a digit sequence or as its
English number word, the extractor applied to the phrase `"<n> people"`
itself returns exactly n (in a longer description an earlier resolvable
quantity token can win instead). -/
theorem claim1_exact_phrase_count :
    (∀ n : Nat, n ≤ 20 → extract_people_count (Nat.repr n ++ " people") = n) ∧
    (∀ p ∈ number_words,
      extract_people_count (stringOfCodes p.1 ++ " people") = p.2) := by
  constructor
  · decide
  · decide

/-- Witness for C1 at n = 7 in both spellings. -/
theorem claim1_exact_phrase_count_app :
    extract_people_count (Nat.repr 7 ++ " people") = 7 ∧
    extract_people_count (stringOfCodes (codes "seven") ++ " people") = 7 :=
  ⟨claim1_exact_phrase_count.1 7 (by decide),
   claim1_exact_phrase_count.2 (codes "seven", 7) (by decide)⟩

/-- C3 counterexample: on `"some people and five people"` the first match of
the winning pattern is the unresolvable token `some`, and the procedure the
claim describes (first match only, then fall through) yields 0, while the
source consults the later match `five` of the same pattern and returns 5. -/
theorem claim3_first_match_cex :
    spec_extract_people_count "some people and five people" = 0 ∧
    extract_people_count "some people and five people" = 5 :=
  ⟨by decide, by decide⟩

/-- C3 (amended): the first pattern owning a resolvable match wins; within a
pattern, matches are consulted in order and the first that resolves (digit
parse or number word) is returned — an unresolvable match is skipped rather
than aborting the pattern, and a pattern with no resolvable match falls
through to the next one. -/
theorem claim3_match_priority :
    (∀ t ts, resolveToken t = none → firstResolved (t :: ts) = firstResolved ts) ∧
    (∀ t ts n, resolveToken t = some n → firstResolved (t :: ts) = some n) ∧
    (∀ p ps cs, firstResolved (reFindall p cs) = none →
      patternSearchAux (p :: ps) cs = patternSearchAux ps cs) ∧
    (∀ p ps cs n, firstResolved (reFindall p cs) = some n →
      patternSearchAux (p :: ps) cs = some n) ∧
    (∀ s n, patternSearchAux patterns (lowerCodes s) = some n →
      extract_people_count s = n) ∧
    extract_people_count "some people and five people" = 5 := by
  refine ⟨?_, ?_, ?_, ?_, ?_, by decide⟩
  · intro t ts h
    simp [firstResolved, h]
  · intro t ts n h
    simp [firstResolved, h]
  · intro p ps cs h
    simp [patternSearchAux, h]
  · intro p ps cs n h
    simp [patternSearchAux, h]
  · intro s n h
    simp [extract_people_count, h]

/-- Witness for C3: a resolvable head token decides `firstResolved`. -/
theorem claim3_match_priority_app :
    firstResolved [codes "five"] = some 5 :=
  claim3_match_priority.2.1 (codes "five") [] 5 (by decide)

/-- C7: when no regex pattern produced a resolvable match, the extractor
falls back to the fixed phrases, checked in the source's priority order, and
the three example descriptions give 2, 3 and 10. -/
theorem claim7_phrase_fallback :
    (∀ s, patternSearchAux patterns (lowerCodes s) = none →
      extract_people_count s = phrase_fallback (lowerCodes s)) ∧
    (∀ cs, hasSubstr cs "couple" = true → phrase_fallback cs = 2) ∧
    (∀ cs, hasSubstr cs "couple" = false →
      (hasSubstr cs "trio" = true ∨ hasSubstr cs "three people" = true) →
      phrase_fallback cs = 3) ∧
    (∀ cs, hasSubstr cs "couple" = false → hasSubstr cs "trio" = false →
      hasSubstr cs "three people" = false →
      (hasSubstr cs "quartet" = true ∨ hasSubstr cs "four people" = true) →
      phrase_fallback cs = 4) ∧
    (∀ cs, hasSubstr cs "couple" = false → hasSubstr cs "trio" = false →
      hasSubstr cs "three people" = false → hasSubstr cs "quartet" = false →
      hasSubstr cs "four people" = false →
      (hasSubstr cs "crowd" = true ∨ hasSubstr cs "many people" = true) →
      phrase_fallback cs = 10) ∧
    (∀ cs, hasSubstr cs "couple" = false → hasSubstr cs "trio" = false →
      hasSubstr cs "three people" = false → hasSubstr cs "quartet" = false →
      hasSubstr cs "four people" = false → hasSubstr cs "crowd" = false →
      hasSubstr cs "many people" = false → hasSubstr cs "few people" = true →
      phrase_fallback cs = 3) ∧
    (∀ cs, hasSubstr cs "couple" = false → hasSubstr cs "trio" = false →
      hasSubstr cs "three people" = false → hasSubstr cs "quartet" = false →
      hasSubstr cs "four people" = false → hasSubstr cs "crowd" = false →
      hasSubstr cs "many people" = false → hasSubstr cs "few people" = false →
      hasSubstr cs "several people" = true → phrase_fallback cs = 5) ∧
    extract_people_count "a couple walking in the park" = 2 ∧
    extract_people_count "a trio of musicians" = 3 ∧
    extract_people_count "a large crowd gathered" = 10 := by
  refine ⟨?_, ?_, ?_, ?_, ?_, ?_, ?_, by decide, by decide, by decide⟩
  · intro s h
    simp [extract_people_count, h]
  · intro cs h
    simp [phrase_fallback, h]
  · intro cs h1 h2
    rcases h2 with h2 | h2 <;> simp [phrase_fallback, h1, h2]
  · intro cs h1 h2 h3 h4
    rcases h4 with h4 | h4 <;> simp [phrase_fallback, h1, h2, h3, h4]
  · intro cs h1 h2 h3 h4 h5 h6
    rcases h6 with h6 | h6 <;> simp [phrase_fallback, h1, h2, h3, h4, h5, h6]
  · intro cs h1 h2 h3 h4 h5 h6 h7 h8
    simp [phrase_fallback, h1, h2, h3, h4, h5, h6, h7, h8]
  · intro cs h1 h2 h3 h4 h5 h6 h7 h8 h9
    simp [phrase_fallback, h1, h2, h3, h4, h5, h6, h7, h8, h9]

/-- Witness for C7 on `"a couple walking in the park"`: no pattern resolves,
the phrase chain fires on `couple`. -/
theorem claim7_phrase_fallback_app :
    extract_people_count "a couple walking in the park" =
      phrase_fallback (lowerCodes "a couple walking in the park") ∧
    phrase_fallback (lowerCodes "a couple walking in the park") = 2 :=
  ⟨claim7_phrase_fallback.1 "a couple walking in the park" (by decide),
   claim7_phrase_fallback.2.1 (lowerCodes "a couple walking in the park") (by decide)⟩

/-! ## Field-splitting claims -/

/-- Confidence entries only arise from fields, so their keys are among the
field names. -/
theorem process_fields_conf_keys (fields : List (String × PyVal)) :
    (process_fields fields).2.map Prod.fst ⊆ fields.map Prod.fst := by
  induction fields with
  | nil => simp [process_fields]
  | cons hd tl ih =>
    obtain ⟨m, w⟩ := hd
    intro x hx
    cases w with
    | vdict d =>
      rcases List.mem_cons.mp hx with he | hx2
      · exact List.mem_cons.mpr (Or.inl he)
      · exact List.mem_cons_of_mem _ (ih hx2)
    | vnone => exact List.mem_cons_of_mem _ (ih hx)
    | vstr s => exact List.mem_cons_of_mem _ (ih hx)
    | vint i => exact List.mem_cons_of_mem _ (ih hx)
    | vfloat a b => exact List.mem_cons_of_mem _ (ih hx)
    | vlist l => exact List.mem_cons_of_mem _ (ih hx)

/-- A dict-valued field is split into its value and its confidence
(default 0.0). -/
theorem process_fields_dict_mem (fields : List (String × PyVal)) (n : String)
    (d : List (String × PyVal)) (hmem : (n, PyVal.vdict d) ∈ fields) :
    (n, (lookupA d "value").getD PyVal.vnone) ∈ (process_fields fields).1 ∧
    (n, (lookupA d "confidence").getD (PyVal.vfloat 0 1)) ∈ (process_fields fields).2 := by
  induction fields with
  | nil => simp at hmem
  | cons hd tl ih =>
    obtain ⟨m, w⟩ := hd
    rcases List.mem_cons.mp hmem with h | h
    · obtain ⟨hm, hw⟩ := Prod.mk.injEq .. ▸ h
      subst hm
      rw [← hw]
      simp [process_fields]
    · have := ih h
      cases w <;> simp [process_fields, this.1, this.2]

/-- A non-dict field is passed through unchanged with no confidence entry
(field names being unique as in a Python dict). -/
theorem process_fields_other_mem (fields : List (String × PyVal)) (n : String)
    (v : PyVal) (hnd : (fields.map Prod.fst).Nodup) (hmem : (n, v) ∈ fields)
    (hv : ∀ d, v ≠ PyVal.vdict d) :
    (n, v) ∈ (process_fields fields).1 ∧
    n ∉ (process_fields fields).2.map Prod.fst := by
  induction fields with
  | nil => simp at hmem
  | cons hd tl ih =>
    obtain ⟨m, w⟩ := hd
    simp only [List.map_cons, List.nodup_cons] at hnd
    rcases List.mem_cons.mp hmem with h | h
    · obtain ⟨hm, hw⟩ := Prod.mk.injEq .. ▸ h
      subst hm
      subst hw
      have hkeys : n ∉ (process_fields tl).2.map Prod.fst :=
        fun hx => hnd.1 (process_fields_conf_keys tl hx)
      cases v with
      | vdict d => exact absurd rfl (hv d)
      | vnone => exact ⟨by simp [process_fields], by simpa [process_fields] using hkeys⟩
      | vstr s => exact ⟨by simp [process_fields], by simpa [process_fields] using hkeys⟩
      | vint i => exact ⟨by simp [process_fields], by simpa [process_fields] using hkeys⟩
      | vfloat a b => exact ⟨by simp [process_fields], by simpa [process_fields] using hkeys⟩
      | vlist l => exact ⟨by simp [process_fields], by simpa [process_fields] using hkeys⟩
    · have hn : n ∈ tl.map Prod.fst := List.mem_map.mpr ⟨(n, v), h, rfl⟩
      have hne : n ≠ m := fun he => hnd.1 (he ▸ hn)
      have ih2 := ih hnd.2 h
      cases w with
      | vdict d =>
        refine ⟨List.mem_cons_of_mem _ ih2.1, fun hx => ?_⟩
        rcases List.mem_cons.mp hx with he | hx2
        · exact hne he
        · exact ih2.2 hx2
      | vnone => exact ⟨List.mem_cons_of_mem _ ih2.1, ih2.2⟩
      | vstr s => exact ⟨List.mem_cons_of_mem _ ih2.1, ih2.2⟩
      | vint i => exact ⟨List.mem_cons_of_mem _ ih2.1, ih2.2⟩
      | vfloat a b => exact ⟨List.mem_cons_of_mem _ ih2.1, ih2.2⟩
      | vlist l => exact ⟨List.mem_cons_of_mem _ ih2.1, ih2.2⟩

/-- C4: for each field of the fields mapping, a mapping-valued field is split
into its `value` entry and a parallel `confidence` entry (default 0.0 when
absent), while any other value is passed through unchanged with no confidence
entry; in particular the Name/Total example splits as specified. -/
theorem claim4_field_splitting :
    (∀ (fields : List (String × PyVal)) (n : String) (d : List (String × PyVal)),
      (n, PyVal.vdict d) ∈ fields →
      (n, (lookupA d "value").getD PyVal.vnone) ∈ (process_fields fields).1 ∧
      (n, (lookupA d "confidence").getD (PyVal.vfloat 0 1)) ∈ (process_fields fields).2) ∧
    (∀ (fields : List (String × PyVal)) (n : String) (v : PyVal),
      (fields.map Prod.fst).Nodup → (n, v) ∈ fields → (∀ d, v ≠ PyVal.vdict d) →
      (n, v) ∈ (process_fields fields).1 ∧
      n ∉ (process_fields fields).2.map Prod.fst) ∧
    process_fields
        [("Name", PyVal.vdict [("value", PyVal.vstr "Acme"),
                               ("confidence", PyVal.vfloat 9 1)]),
         ("Total", PyVal.vint 42)] =
      ([("Name", PyVal.vstr "Acme"), ("Total", PyVal.vint 42)],
       [("Name", PyVal.vfloat 9 1)]) :=
  ⟨fun fields n d h => process_fields_dict_mem fields n d h,
   fun fields n v hnd h hv => process_fields_other_mem fields n v hnd h hv,
   rfl⟩

/-- Witness for C4 on the Name/Total fields: the dict field splits and the
raw field passes through without a confidence entry. -/
theorem claim4_field_splitting_app :
    (("Name", PyVal.vstr "Acme") ∈
      (process_fields
        [("Name", PyVal.vdict [("value", PyVal.vstr "Acme"),
                               ("confidence", PyVal.vfloat 9 1)]),
         ("Total", PyVal.vint 42)]).1 ∧
     ("Name", PyVal.vfloat 9 1) ∈
      (process_fields
        [("Name", PyVal.vdict [("value", PyVal.vstr "Acme"),
                               ("confidence", PyVal.vfloat 9 1)]),
         ("Total", PyVal.vint 42)]).2) ∧
    (("Total", PyVal.vint 42) ∈
      (process_fields
        [("Name", PyVal.vdict [("value", PyVal.vstr "Acme"),
                               ("confidence", PyVal.vfloat 9 1)]),
         ("Total", PyVal.vint 42)]).1 ∧
     "Total" ∉
      ((process_fields
        [("Name", PyVal.vdict [("value", PyVal.vstr "Acme"),
                               ("confidence", PyVal.vfloat 9 1)]),
         ("Total", PyVal.vint 42)]).2.map Prod.fst)) :=
  ⟨claim4_field_splitting.1 _ "Name"
      [("value", PyVal.vstr "Acme"), ("confidence", PyVal.vfloat 9 1)]
      (List.mem_cons_self _ _),
   claim4_field_splitting.2.1 _ "Total" (PyVal.vint 42)
      (by simp) (List.mem_cons_of_mem _ (List.mem_cons_self _ _))
      (fun d h => by simp at h)⟩

/-! ## Fallback-processing claims -/

/-- The fallback summary is capped at 1000 characters. -/
theorem truncateSummary_len (s : String) :
    (truncateSummary s).data.length ≤ 1000 := by
  unfold truncateSummary
  split
  · simpa using List.length_take_le 1000 s.data
  · omega

/-- C6 counterexample: no 10,000-character truncation exists — a primary
(full) extraction whose field holds a 10,001-character text stores it
untruncated. -/
theorem claim6_truncation_cex :
    (process_document_with_ai "T" (.ok bigAIResult) [] "doc.pdf").extracted_data =
      [("Text", PyVal.vstr longText)] ∧
    10000 < longText.data.length := by
  constructor
  · rfl
  · show 10000 < (List.replicate 10001 'a').length
    rw [List.length_replicate]
    omega

/-- C6 (amended): when the primary AI call fails for any reason the caller
degrades to the local fallback extractor; the fallback decodes the bytes when
the extension suggests text, labels the content a binary file otherwise
(also on decode failure), always produces a well-formed result whose Summary
is truncated to 1,000 characters (the primary path applies no truncation at
all), and on a `.txt` file containing `"hello world"` reports wordCount 2,
characterCount 11, Summary `"hello world"`, and a persisted processingStatus
of `"completed"`. -/
theorem claim6_fallback :
    (∀ now content filename e,
      process_document_with_ai now (.error e) content filename =
        process_document_fallback now content filename) ∧
    (∀ now content filename,
      lookupA (process_document_fallback now content filename).extracted_data
          "Summary" =
        some (PyVal.vstr (truncateSummary (fallback_text content filename))) ∧
      (truncateSummary (fallback_text content filename)).data.length ≤ 1000) ∧
    (∀ content filename, text_extension_ok filename = false →
      fallback_text content filename = "Binary file: " ++ filename) ∧
    (∀ content filename cps, text_extension_ok filename = true →
      utf8Decode content = some cps →
      fallback_text content filename = stringOfCodes cps) ∧
    (∀ content filename, text_extension_ok filename = true →
      utf8Decode content = none →
      fallback_text content filename =
        "Binary file that couldn't be decoded as text: " ++ filename) ∧
    (lookupA (process_document_fallback "T" (codes "hello world") "doc.txt").metadata
        "wordCount" = some (PyVal.vint 2) ∧
     lookupA (process_document_fallback "T" (codes "hello world") "doc.txt").metadata
        "characterCount" = some (PyVal.vint 11) ∧
     lookupA (process_document_fallback "T" (codes "hello world") "doc.txt").extracted_data
        "Summary" = some (PyVal.vstr "hello world") ∧
     lookupA (build_cosmos_document "doc.txt" 11
          (process_document_fallback "T" (codes "hello world") "doc.txt"))
        "processingStatus" = some (PyVal.vstr "completed")) := by
  refine ⟨fun now content filename e => rfl, ?_, ?_, ?_, ?_, ?_, ?_, ?_, ?_⟩
  · intro now content filename
    exact ⟨rfl, truncateSummary_len _⟩
  · intro content filename h
    simp [fallback_text, h]
  · intro content filename cps h hdec
    simp [fallback_text, h, hdec]
  · intro content filename h hdec
    simp [fallback_text, h, hdec]
  · rfl
  · rfl
  · rfl
  · rfl

/-- Witness for C6: the degradation equation at a concrete failing call, and
the binary-labelling branch at a concrete non-text filename. -/
theorem claim6_fallback_app :
    process_document_with_ai "T" (.error PyError.typeError)
        (codes "hello world") "doc.txt" =
      process_document_fallback "T" (codes "hello world") "doc.txt" ∧
    fallback_text [0] "image.png" = "Binary file: " ++ "image.png" :=
  ⟨claim6_fallback.1 "T" (codes "hello world") "doc.txt" PyError.typeError,
   claim6_fallback.2.2.1 [0] "image.png" (by decide)⟩

/-! ## Image-analysis interpretation claims -/

/-- C9 counterexample: a payload that does contain a `result` mapping with a
`contents` list — but an empty one — fails with an index error, not with the
unbound-variable error and not with a returned summary. -/
theorem claim9_contents_empty_cex :
    analyze_image_for_people
        [("result", PyVal.vdict [("contents", PyVal.vlist [])])] =
      .error PyError.indexError := rfl

/-- C9 (amended): when the payload has a `result` mapping whose `contents`
list is non-empty and whose first element yields a string description, the
call returns a mapping with exactly the keys `people_counts`, `description`
and `full_results`; when the `result` key is absent, or the `result` mapping
has no `contents` key, the unbound `description` local makes the call fail
with a name error (an empty `contents` list instead fails with an index
error). -/
theorem claim9_image_summary :
    (∀ (results rr : List (String × PyVal)) (c : PyVal) (cl : List PyVal)
        (d : String),
      lookupA results "result" = some (PyVal.vdict rr) →
      lookupA rr "contents" = some (PyVal.vlist (c :: cl)) →
      contentDescription c = .ok (PyVal.vstr d) →
      analyze_image_for_people results =
        .ok [("people_counts", PyVal.vint (Int.ofNat (extract_people_count d))),
             ("description", PyVal.vstr d),
             ("full_results", PyVal.vdict results)]) ∧
    (∀ results : List (String × PyVal), lookupA results "result" = none →
      analyze_image_for_people results = .error PyError.nameError) ∧
    (∀ (results rr : List (String × PyVal)),
      lookupA results "result" = some (PyVal.vdict rr) →
      lookupA rr "contents" = none →
      analyze_image_for_people results = .error PyError.nameError) := by
  refine ⟨?_, ?_, ?_⟩
  · intro results rr c cl d h1 h2 h3
    simp [analyze_image_for_people, h1, h2, h3]
  · intro results h1
    simp [analyze_image_for_people, h1]
  · intro results rr h1 h2
    simp [analyze_image_for_people, h1, h2]

/-- Witness for C9 on a well-shaped payload with a markdown description
mentioning two people. -/
theorem claim9_image_summary_app :
    analyze_image_for_people results9 =
      .ok [("people_counts", PyVal.vint (Int.ofNat (extract_people_count "two people"))),
           ("description", PyVal.vstr "two people"),
           ("full_results", PyVal.vdict results9)] :=
  claim9_image_summary.1 results9
    [("contents", PyVal.vlist [PyVal.vdict [("markdown", PyVal.vstr "two people")]])]
    (PyVal.vdict [("markdown", PyVal.vstr "two people")]) [] "two people"
    rfl rfl rfl

/-! ## Schema-cache claims -/

/-- Auxiliary: folding registrations over a cache that lacks `key` keeps
lacking `key` as long as no successful registration cached that exact key. -/
theorem run_registrations_aux (key : String) :
    ∀ (regs : List (List (String × PyVal) × Except PyError PyVal))
      (cache : List (String × PyVal)),
      (∀ r ∈ regs, ∀ result, r.2 = .ok result → schemaKey r.1 ≠ key) →
      lookupA cache key = none →
      lookupA (regs.foldl (fun c r => (register_schema c r.1 r.2).1) cache) key =
        none
  | [], _, _, hc => hc
  | hd :: tl, cache, h, hc => by
    have hhd := h hd (List.mem_cons_self _ _)
    have htl : ∀ r ∈ tl, ∀ result, r.2 = .ok result → schemaKey r.1 ≠ key :=
      fun r hr => h r (List.mem_cons_of_mem _ hr)
    have hstep : lookupA (register_schema cache hd.1 hd.2).1 key = none := by
      cases ho : hd.2 with
      | error e => simpa [register_schema, ho] using hc
      | ok result =>
        have hne := hhd result ho
        simp [register_schema, ho, lookupA, hne, hc]
    exact run_registrations_aux key tl (register_schema cache hd.1 hd.2).1 htl hstep

/-- C10 counterexample: registering the schema named `a_b` at version `c`
caches key `a_b_c`, and the never-registered pair (`a`, `b_c`) — a different
name/version pair — retrieves that cached response instead of `None`. -/
theorem claim10_key_collision_cex :
    get_schema_info (register_schema [] schemaAB (.ok (PyVal.vstr "resp"))).1
        "a" "b_c" = some (PyVal.vstr "resp") ∧
    ("a", "b_c") ≠ ("a_b", "c") :=
  ⟨rfl, by decide⟩

/-- C10 (amended): immediately after a successful `register_schema(s)`,
`get_schema_info(n, v)` with `n` the schema's name and `v` its version
(default `"1.0"`) returns exactly the cached service response; a lookup
returns `None` whenever no successful registration cached the joined key
`n + "_" + v` (distinct name/version pairs can collide on that joined key);
and a failed registration leaves the cache untouched. -/
theorem claim10_schema_cache :
    (∀ (cache schema : List (String × PyVal)) (result : PyVal) (n v : String),
      lookupA schema "name" = some (PyVal.vstr n) →
      (lookupA schema "version" = some (PyVal.vstr v) ∨
        (lookupA schema "version" = none ∧ v = "1.0")) →
      get_schema_info (register_schema cache schema (.ok result)).1 n v =
        some result) ∧
    (∀ (regs : List (List (String × PyVal) × Except PyError PyVal)) (n v : String),
      (∀ r ∈ regs, ∀ result, r.2 = .ok result → schemaKey r.1 ≠ n ++ "_" ++ v) →
      get_schema_info (run_registrations regs) n v = none) ∧
    (∀ (cache schema : List (String × PyVal)) (e : PyError),
      (register_schema cache schema (.error e)).1 = cache) := by
  refine ⟨?_, ?_, fun cache schema e => rfl⟩
  · intro cache schema result n v hname hver
    have hkey : schemaKey schema = n ++ "_" ++ v := by
      rcases hver with hv | ⟨hv, rfl⟩ <;> simp [schemaKey, hname, hv, pyFormat]
    simp [get_schema_info, register_schema, hkey, lookupA]
  · intro regs n v h
    exact run_registrations_aux (n ++ "_" ++ v) regs [] h rfl

/-- Witness for C10: a registration at a concrete name and version is
immediately retrievable. -/
theorem claim10_schema_cache_app :
    get_schema_info
        (register_schema []
          [("name", PyVal.vstr "invoice"), ("version", PyVal.vstr "2.0")]
          (.ok (PyVal.vstr "R"))).1
        "invoice" "2.0" = some (PyVal.vstr "R") :=
  claim10_schema_cache.1 []
    [("name", PyVal.vstr "invoice"), ("version", PyVal.vstr "2.0")]
    (PyVal.vstr "R") "invoice" "2.0" rfl (Or.inl rfl)
